import Mathlib

/-!
Shallow embedding of the nano-banana MCP image-generation server.

The embedding covers:
* `Gemini` — the retrying client wrapper from `src/gemini.ts`
  (`getConfiguredApiKey`, `getModelName`, `isRetryableGeminiError`,
  `toUserFacingGeminiError`, `generateImage`);
* `Tools` — the fallback persistence variant (`resolveOutputFilePath`,
  `saveImage`, the `generate_image` tool handler);
* `ToolsStrict` — the strict absolute-path persistence variant.

External effects are made explicit: the backend is an oracle
`Nat → BackendOutcome` indexed by attempt number, the filesystem is an
oracle environment per attempt plus an emitted trace of `FsOp` events,
the JPEG re-encoder (`sharp`) and the base64 decoder (`Buffer.from`) are
opaque function parameters, and timers are recorded as `sleep` events in
an event trace rather than real delays.  Filesystem paths are modelled
as an absolute-flag plus a list of normalized segments, so the Node
`path` helpers become list operations on segments plus character-level
extension parsing of the final segment.
-/

/-- JS `String.prototype.includes` on character lists: `pat` occurs as a
contiguous substring of `s`. -/
def containsSubList (s pat : List Char) : Bool :=
  match s with
  | [] => pat.isEmpty
  | c :: rest => pat.isPrefixOf (c :: rest) || containsSubList rest pat

/-- JS `String.prototype.includes`. -/
def containsSub (s pat : String) : Bool :=
  containsSubList s.toList pat.toList

/-- JS `toLowerCase` as a per-character map (every compared term is
ASCII). -/
def toLowerAscii (s : String) : String :=
  String.mk (s.data.map Char.toLower)

namespace Gemini

def DEFAULT_IMAGE_MODEL : String := "gemini-3-pro-image-preview"
def REQUEST_TIMEOUT_MS : Nat := 60000
def MAX_RETRIES : Nat := 2
def RETRY_BACKOFF_MS : Nat := 500
def RETRYABLE_STATUS_CODES : List Nat := [408, 429, 500, 502, 503, 504]

/-- A JS value thrown during an attempt: an `ApiError` from the SDK, an
`Error` carrying a numeric `status` field, a plain `Error`, a non-`Error`
object with a numeric `status` and a `message`, or anything else. -/
inductive ThrownValue where
  | apiError (status : Nat) (message : String)
  | errorWithStatus (status : Nat) (message : String)
  | jsError (message : String)
  | statusObject (status : Nat) (message : String)
  | other
deriving DecidableEq, Repr

/-- The case-insensitive substring checks of `isRetryableGeminiError`. -/
def retryableMessage (m : String) : Bool :=
  let lower := toLowerAscii m
  containsSub lower "timeout" || containsSub lower "timed out" ||
    containsSub lower "etimedout" || containsSub lower "econnreset" ||
    containsSub lower "temporar"

/-- `isRetryableGeminiError` from `src/gemini.ts`: an `ApiError` is judged
by status alone; otherwise a numeric `status` field in the retryable set,
or a transient-sounding message, makes the failure retryable. -/
def isRetryableGeminiError : ThrownValue → Bool
  | .apiError s _ => RETRYABLE_STATUS_CODES.contains s
  | .errorWithStatus s m =>
    RETRYABLE_STATUS_CODES.contains s || retryableMessage m
  | .jsError m => retryableMessage m
  | .statusObject s m =>
    RETRYABLE_STATUS_CODES.contains s || retryableMessage m
  | .other => retryableMessage ""

def authFailedMessage : String :=
  "Gemini API authentication failed. Check GEMINI_API_KEY/GOOGLE_API_KEY and permissions."

def rateLimitMessage : String :=
  "Gemini API rate limit reached. Please retry in a moment."

def unavailableMessage : String :=
  "Gemini API is temporarily unavailable. Please retry shortly."

def unknownErrorMessage : String :=
  "Failed to generate image due to an unknown error."

/-- `toUserFacingGeminiError` from `src/gemini.ts`, as the message of the
`Error` it constructs. -/
def toUserFacingGeminiError : ThrownValue → String
  | .apiError s m =>
    if s = 401 ∨ s = 403 then authFailedMessage
    else if s = 429 then rateLimitMessage
    else if s ≥ 500 then unavailableMessage
    else "Gemini API request failed (status " ++ toString s ++ "): " ++ m
  | .errorWithStatus _ m => "Failed to generate image: " ++ m
  | .jsError m => "Failed to generate image: " ++ m
  | .statusObject _ _ => unknownErrorMessage
  | .other => unknownErrorMessage

/-- One content fragment of a backend response: `inlineData` holds the
`inlineData.data` field when present, `text` holds the `text` field. -/
structure Part where
  inlineData : Option String
  text : Option String
deriving DecidableEq, Repr

/-- `response.candidates?.[0]?.content?.parts` of a backend response;
`none` when any link of that optional chain is missing. -/
structure GenResponse where
  parts : Option (List Part)
deriving DecidableEq, Repr

/-- JS truthiness of an optional string: present and non-empty. -/
def truthy : Option String → Bool
  | some s => s ≠ ""
  | none => false

/-- The fragment scan of `generateImage` (lines 116-122 of
`src/gemini.ts`): every fragment with truthy inline data overwrites
`imageData`; truthy text fragments are concatenated with a newline. -/
def scanParts : List Part → Option String × Option String → Option String × Option String
  | [], acc => acc
  | p :: rest, (img, txt) =>
    if truthy p.inlineData then
      scanParts rest (p.inlineData, txt)
    else if truthy p.text then
      scanParts rest
        (img,
          some (if truthy txt then txt.getD "" ++ "\n" ++ p.text.getD "" else p.text.getD ""))
    else
      scanParts rest (img, txt)

/-- Outcome of one backend call: a response object, or a thrown value. -/
inductive BackendOutcome where
  | ok (resp : GenResponse)
  | thrown (e : ThrownValue)
deriving DecidableEq, Repr

/-- The successful return value of `generateImage`. -/
structure GenOk where
  data : String
  mimeType : String
  model : String
  text : Option String
deriving DecidableEq, Repr

def noPartsMessage : String := "No content parts returned from Gemini API."

def noImageMessage : String := "No image data found in the response."

/-- Body of the `try` block applied to a backend response: reject missing
or empty part lists, scan fragments, reject a missing image, then
re-encode (`reencode` stands for the opaque sharp JPEG transform on
base64 payloads). -/
def processResponse (reencode : String → String) (modelName : String)
    (resp : GenResponse) : Except ThrownValue GenOk :=
  match resp.parts with
  | none => .error (.jsError noPartsMessage)
  | some parts =>
    if parts.length = 0 then .error (.jsError noPartsMessage)
    else
      match scanParts parts (none, none) with
      | (none, _) => .error (.jsError noImageMessage)
      | (some d, txt) =>
        .ok { data := reencode d, mimeType := "image/jpeg", model := modelName,
              text := if truthy txt then txt else none }

/-- One whole attempt of the `try` block, given what the backend did. -/
def attemptStep (reencode : String → String) (modelName : String) :
    BackendOutcome → Except ThrownValue GenOk
  | .ok resp => processResponse reencode modelName resp
  | .thrown e => .error e

/-- The distinct failure exits of `generateImage`: the missing-credential
throw before the loop, the translated throw inside the loop, and the
throw after the loop. -/
inductive GenError where
  | missingKey (message : String)
  | userFacing (message : String)
  | retriesExhausted
deriving DecidableEq, Repr

def afterRetriesMessage : String := "Failed to generate image after retry attempts."

def GenError.message : GenError → String
  | .missingKey m => m
  | .userFacing m => m
  | .retriesExhausted => afterRetriesMessage

/-- Observable events of one `generateImage` run: backend calls and
backoff sleeps, in order. -/
inductive GenEvent where
  | call
  | sleep (ms : Nat)
deriving DecidableEq, Repr

def isCallEvent : GenEvent → Bool
  | .call => true
  | .sleep _ => false

/-- The retry loop of `generateImage` (lines 94-151 of `src/gemini.ts`),
iterating over the remaining attempt indices of
`for (let attempt = 0; attempt <= MAX_RETRIES; attempt++)`, paired with
its event trace.  Exiting the loop with the index list exhausted
produces `GenError.retriesExhausted`, the throw after the loop. -/
def generateImageLoop (reencode : String → String) (modelName : String)
    (oracle : Nat → BackendOutcome) : List Nat → Except GenError GenOk × List GenEvent
  | [] => (.error .retriesExhausted, [])
  | attempt :: rest =>
    match attemptStep reencode modelName (oracle attempt) with
    | .ok r => (.ok r, [.call])
    | .error e =>
      if isRetryableGeminiError e = true ∧ attempt < MAX_RETRIES then
        ((generateImageLoop reencode modelName oracle rest).1,
          .call :: .sleep (RETRY_BACKOFF_MS * 2 ^ attempt) ::
            (generateImageLoop reencode modelName oracle rest).2)
      else
        (.error (.userFacing (toUserFacingGeminiError e)), [.call])

/-- The numeric `status` field of a thrown value, when one exists. -/
def ThrownValue.statusOf : ThrownValue → Option Nat
  | .apiError s _ => some s
  | .errorWithStatus s _ => some s
  | .statusObject s _ => some s
  | .jsError _ => none
  | .other => none

/-- The `message` field read by the classifier (`?? ""` for values
without one). -/
def ThrownValue.messageOf : ThrownValue → String
  | .apiError _ m => m
  | .errorWithStatus _ m => m
  | .statusObject _ m => m
  | .jsError m => m
  | .other => ""

/-- The inline image payload a fragment contributes, `none` unless the
`inlineData.data` field is present and truthy. -/
def inlinePayload (p : Part) : Option String :=
  match p.inlineData with
  | some d => if d = "" then none else some d
  | none => none

/-- The payload of the last fragment carrying truthy inline image bytes. -/
def lastInlineData : List Part → Option String
  | [] => none
  | p :: rest =>
    match lastInlineData rest with
    | some d => some d
    | none => inlinePayload p

/-- The event trace of a run whose next attempt index is `a` and whose
terminal attempt is `k` steps later: a backoff sleep of
`RETRY_BACKOFF_MS * 2 ^ i` after each non-terminal call, none after the
last call. -/
def tracePatternAux (a : Nat) : Nat → List GenEvent
  | 0 => [.call]
  | k + 1 => .call :: .sleep (RETRY_BACKOFF_MS * 2 ^ a) :: tracePatternAux (a + 1) k

/-- The event trace of a run that starts at attempt `a` and ends at
attempt `n`. -/
def tracePatternFrom (a n : Nat) : List GenEvent :=
  tracePatternAux a (n - a)

/-- Environment-style configuration read by the generation client. -/
structure GenEnv where
  geminiKey : Option String
  googleKey : Option String
  modelOverride : Option String
deriving DecidableEq, Repr

def missingKeyMessage : String :=
  "GEMINI_API_KEY (or GOOGLE_API_KEY) environment variable is required for image generation."

/-- `getConfiguredApiKey`: `GEMINI_API_KEY ?? GOOGLE_API_KEY`, then a JS
truthiness check, so an empty-string value also fails. -/
def getConfiguredApiKey (env : GenEnv) : Except String String :=
  let apiKey := match env.geminiKey with
    | some v => some v
    | none => env.googleKey
  match apiKey with
  | none => .error missingKeyMessage
  | some v => if v = "" then .error missingKeyMessage else .ok v

/-- `getModelName`: trimmed override when truthy, else the default. -/
def getModelName (env : GenEnv) : String :=
  match env.modelOverride with
  | some s => if s.trim = "" then DEFAULT_IMAGE_MODEL else s.trim
  | none => DEFAULT_IMAGE_MODEL

/-- `generateImage`: resolve the credential (via `getClient`) and the
model name before the loop, then run the retry loop from attempt 0. -/
def generateImage (reencode : String → String) (env : GenEnv)
    (oracle : Nat → BackendOutcome) : Except GenError GenOk × List GenEvent :=
  match getConfiguredApiKey env with
  | .error m => (.error (.missingKey m), [])
  | .ok _ => generateImageLoop reencode (getModelName env) oracle (List.range (MAX_RETRIES + 1))

end Gemini

/-- A filesystem path: an absolute-flag plus normalized segments.  Node
`path.join` appends a segment, `path.dirname` drops the last segment,
`path.extname` inspects the characters of the last segment. -/
structure FPath where
  abs : Bool
  segs : List String
deriving DecidableEq, Repr

def renderFPath (p : FPath) : String :=
  (if p.abs then "/" else "") ++ String.intercalate "/" p.segs

/-- Node `path.extname` on a single basename: the substring from the last
dot, except when there is no dot, or the only role of the dot is to lead
a dotfile (dot at position 0). -/
def extnameOfBase (base : String) : String :=
  let cs := base.toList
  let afterDot := cs.reverse.takeWhile (fun c => c ≠ '.')
  if afterDot.length = cs.length then ""
  else if afterDot.length + 1 = cs.length then ""
  else String.mk ('.' :: afterDot.reverse)

/-- `path.extname` of a whole path: the extension of its last segment. -/
def FPath.extname (p : FPath) : String :=
  extnameOfBase (p.segs.getLastD "")

/-- `path.join(p, name)` for a single filename segment. -/
def FPath.joinFile (p : FPath) (name : String) : FPath :=
  ⟨p.abs, p.segs ++ [name]⟩

/-- `path.dirname`. -/
def FPath.dirname (p : FPath) : FPath :=
  ⟨p.abs, p.segs.dropLast⟩

namespace Tools

def JPEG_EXTENSIONS : List String := [".jpg", ".jpeg"]

/-- `buildGeneratedFileName`, with the timestamp rendering and the random
suffix supplied by the per-call environment instead of `Date`/`Math.random`. -/
def buildGeneratedFileName (timestamp randomId : String) : String :=
  "generated-" ++ timestamp ++ "-" ++ randomId ++ ".jpg"

/-- `expandUserPath`: a leading `~` segment is replaced by the home
directory. -/
def expandUserPath (home : FPath) (p : FPath) : FPath :=
  match p.segs with
  | "~" :: rest => ⟨home.abs, home.segs ++ rest⟩
  | _ => p

/-- `normalizePathInput`: expand `~`, then resolve relative paths against
the current working directory. -/
def normalizePathInput (home cwd : FPath) (p : FPath) : FPath :=
  let expanded := expandUserPath home p
  if expanded.abs then expanded else ⟨true, cwd.segs ++ expanded.segs⟩

/-- First-occurrence deduplication, as `Array.from(new Set(...))`. -/
def dedupFirst : List FPath → List FPath
  | [] => []
  | p :: rest => p :: (dedupFirst rest).filter (fun q => q ≠ p)

/-- `getDefaultOutputDirectories`: the normalized `IMAGE_OUTPUT_DIR` (when
set and non-empty after trimming, which the `Option` encodes), then the
home and temporary-directory subfolders, first occurrences kept. -/
def getDefaultOutputDirectories (imageOutputDir : Option FPath)
    (home tmp cwd : FPath) : List FPath :=
  let configured := match imageOutputDir with
    | some d => [normalizePathInput home cwd d]
    | none => []
  dedupFirst (configured ++
    [home.joinFile "nano-banana-images", tmp.joinFile "nano-banana-images"])

/-- Per-call filesystem and randomness environment: whether the `mkdir`,
`writeFile` and `stat` calls of this attempt succeed, the messages of
their failures, the size `stat` reports, and the timestamp/random pieces
of a generated filename. -/
structure FsEnv where
  mkdirOk : Bool
  mkdirMsg : String
  writeOk : Bool
  writeMsg : String
  statOk : Bool
  statMsg : String
  statSize : Nat
  timestamp : String
  randomId : String
deriving DecidableEq, Repr

/-- A recorded filesystem side effect. -/
inductive FsOp where
  | mkdirRec (p : FPath)
  | write (p : FPath)
  | fsStat (p : FPath)
deriving DecidableEq, Repr

def extensionErrorMessage (ext : String) : String :=
  "save_path must use a .jpg or .jpeg extension because this tool outputs JPEG data, got: " ++ ext

/-- The marker substring that `saveImage` looks for to recognize an
extension error. -/
def extMarker : String := "must use a .jpg or .jpeg extension"

/-- The effective target of `resolveOutputFilePath`: the normalized
`savePath` when given, else the supplied default directory, else the
first default candidate. -/
def effectiveTarget (home cwd : FPath) (defaults : List FPath)
    (savePath defaultDir : Option FPath) : FPath :=
  match savePath with
  | some sp => normalizePathInput home cwd sp
  | none =>
    match defaultDir with
    | some d => d
    | none => defaults.headD ⟨true, []⟩

/-- The shared body of both `resolveOutputFilePath` variants, applied to
the effective target: directory-shaped targets are created recursively
and joined with a generated filename; recognized file extensions keep
the path after creating the parent; other extensions fail without
touching the filesystem. -/
def resolveCore (env : FsEnv) (targetPath : FPath) :
    Except String FPath × List FsOp :=
  if targetPath.extname = "" then
    if env.mkdirOk then
      (.ok (targetPath.joinFile (buildGeneratedFileName env.timestamp env.randomId)),
        [.mkdirRec targetPath])
    else
      (.error env.mkdirMsg, [.mkdirRec targetPath])
  else if JPEG_EXTENSIONS.contains (toLowerAscii targetPath.extname) then
    if env.mkdirOk then
      (.ok targetPath, [.mkdirRec targetPath.dirname])
    else
      (.error env.mkdirMsg, [.mkdirRec targetPath.dirname])
  else
    (.error (extensionErrorMessage targetPath.extname), [])

/-- `resolveOutputFilePath` of the fallback variant: the shared analysis
applied to the normalized caller path, the supplied default directory,
or the first default candidate. -/
def resolveOutputFilePath (env : FsEnv) (home cwd : FPath)
    (defaults : List FPath) (savePath defaultDir : Option FPath) :
    Except String FPath × List FsOp :=
  resolveCore env (effectiveTarget home cwd defaults savePath defaultDir)

def emptyPayloadMessage : String := "Image data is empty, nothing to save."

def emptyFileMessage (p : FPath) : String :=
  "File was written but is empty: " ++ renderFPath p

/-- One attempt descriptor of the `saveImage` attempt list. -/
structure Attempt where
  savePath : Option FPath
  defaultDir : Option FPath
  label : String
deriving DecidableEq, Repr

/-- The labels of the default-directory attempts. -/
def fallbackLabels (savePath : Option FPath) (defaults : List FPath) : List String :=
  if savePath.isSome ∧ defaults ≠ [] then
    defaults.map (fun d => "fallback directory " ++ renderFPath d)
  else
    ["default directory " ++ renderFPath (defaults.headD ⟨true, []⟩)]

/-- The default-directory attempts, one per candidate, with its label. -/
def defaultAttempts (savePath : Option FPath) (defaults : List FPath) : List Attempt :=
  defaults.enum.map (fun p =>
    ⟨none, some p.2,
      ((fallbackLabels savePath defaults).get? p.1).getD
        ("fallback directory " ++ renderFPath p.2)⟩)

/-- The attempt list built at the top of `saveImage`: the caller target
first when given, then every default directory with its label. -/
def buildAttempts (savePath : Option FPath) (defaults : List FPath) : List Attempt :=
  (match savePath with
    | some sp => [⟨some sp, none, "requested save_path"⟩]
    | none => []) ++ defaultAttempts savePath defaults

/-- Resolve, write and stat for one attempt, with its trace. -/
def runAttempt (env : FsEnv) (home cwd : FPath) (defaults : List FPath)
    (a : Attempt) : Except String FPath × List FsOp :=
  match resolveOutputFilePath env home cwd defaults a.savePath a.defaultDir with
  | (.error m, ops) => (.error m, ops)
  | (.ok filePath, ops) =>
    if env.writeOk then
      if env.statOk then
        if env.statSize = 0 then
          (.error (emptyFileMessage filePath), ops ++ [.write filePath, .fsStat filePath])
        else
          (.ok filePath, ops ++ [.write filePath, .fsStat filePath])
      else
        (.error env.statMsg, ops ++ [.write filePath, .fsStat filePath])
    else
      (.error env.writeMsg, ops ++ [.write filePath])

/-- Result record of the fallback `saveImage`. -/
structure SaveResult where
  filePath : FPath
  warning : Option String
deriving DecidableEq, Repr

def fallbackWarning (firstFailure : String) : String :=
  "Requested save_path failed (" ++ firstFailure ++ "). Saved to fallback path instead."

def exhaustedMessage (lastMsg : Option String) (firstFailure : Option String) : String :=
  "Failed to save generated image. " ++
    (match lastMsg with
      | some m => m
      | none => "Unknown filesystem save error.") ++ "." ++
    (match firstFailure with
      | some f => " First failure: " ++ f
      | none => "")

/-- The attempt loop of the fallback `saveImage`: first success wins, an
extension error on a caller-supplied attempt is rethrown at once, the
first failure message is remembered for the fallback warning, and
exhaustion raises a combined error. -/
def saveLoop (envs : Nat → FsEnv) (home cwd : FPath) (defaults : List FPath)
    (savePathGiven : Option FPath) :
    List Attempt → Nat → Option String → Option String →
      Except String SaveResult × List FsOp
  | [], _, firstFail, lastMsg => (.error (exhaustedMessage lastMsg firstFail), [])
  | a :: rest, i, firstFail, _lastErr =>
    match runAttempt (envs i) home cwd defaults a with
    | (.ok fp, ops) =>
      if a.savePath.isSome then (.ok ⟨fp, none⟩, ops)
      else if savePathGiven.isSome ∧ firstFail.isSome then
        (.ok ⟨fp, some (fallbackWarning (firstFail.getD ""))⟩, ops)
      else (.ok ⟨fp, none⟩, ops)
    | (.error msg, ops) =>
      if a.savePath.isSome ∧ containsSub msg extMarker then
        (.error msg, ops)
      else
        ((saveLoop envs home cwd defaults savePathGiven rest (i + 1)
            (some (firstFail.getD (a.label ++ ": " ++ msg))) (some msg)).1,
          ops ++ (saveLoop envs home cwd defaults savePathGiven rest (i + 1)
            (some (firstFail.getD (a.label ++ ": " ++ msg))) (some msg)).2)

/-- `saveImage` of the fallback variant: decode, reject empty payloads
before any filesystem work, then walk the attempt list.  `decode` stands
for `Buffer.from(data, "base64")`. -/
def saveImage (decode : String → List Nat) (envs : Nat → FsEnv)
    (home cwd tmp : FPath) (imageOutputDir : Option FPath)
    (data : String) (savePath : Option FPath) :
    Except String SaveResult × List FsOp :=
  if (decode data).length = 0 then (.error emptyPayloadMessage, [])
  else
    saveLoop envs home cwd (getDefaultOutputDirectories imageOutputDir home tmp cwd) savePath
      (buildAttempts savePath (getDefaultOutputDirectories imageOutputDir home tmp cwd)) 0
      none none

end Tools

namespace ToolsStrict

/-- `resolveOutputFilePath` of the strict variant: reject non-absolute
paths, then the same directory/extension analysis as the fallback
variant, without any normalization. -/
def resolveOutputFilePath (env : Tools.FsEnv) (savePath : FPath) :
    Except String FPath × List Tools.FsOp :=
  if !savePath.abs then
    (.error ("save_path must be an absolute path, got: " ++ renderFPath savePath), [])
  else
    Tools.resolveCore env savePath

/-- `saveImage` of the strict variant: resolve the path first (performing
its directory creation), only then check for an empty payload, then
write and stat. -/
def saveImage (decode : String → List Nat) (env : Tools.FsEnv)
    (data : String) (savePath : FPath) :
    Except String FPath × List Tools.FsOp :=
  match resolveOutputFilePath env savePath with
  | (.error m, ops) => (.error m, ops)
  | (.ok filePath, ops) =>
    if (decode data).length = 0 then (.error Tools.emptyPayloadMessage, ops)
    else if env.writeOk then
      if env.statOk then
        if env.statSize = 0 then
          (.error (Tools.emptyFileMessage filePath), ops ++ [.write filePath, .fsStat filePath])
        else
          (.ok filePath, ops ++ [.write filePath, .fsStat filePath])
      else
        (.error env.statMsg, ops ++ [.write filePath, .fsStat filePath])
    else
      (.error env.writeMsg, ops ++ [.write filePath])

end ToolsStrict

namespace Tools

/-- The structured record of a successful tool response. -/
structure StructuredContent where
  file_path : FPath
  mime_type : String
  model : String
  text : Option String
deriving DecidableEq, Repr

/-- The outward tool response: the status text of the first content item,
the optional image content, the error flag (absent means `false`), and
the optional structured record. -/
structure ToolResponse where
  text : String
  image : Option (String × String)
  isError : Bool
  structured : Option StructuredContent
deriving DecidableEq, Repr

/-- The `generate_image` handler of the fallback variant: generate, save,
and assemble either the success response or the error-flagged response. -/
def handler (reencode : String → String) (decode : String → List Nat)
    (genv : Gemini.GenEnv) (oracle : Nat → Gemini.BackendOutcome)
    (envs : Nat → FsEnv) (home cwd tmp : FPath) (imageOutputDir : Option FPath)
    (savePath : Option FPath) : ToolResponse :=
  match (Gemini.generateImage reencode genv oracle).1 with
  | .error e =>
    { text := "Error generating image: " ++ e.message,
      image := none, isError := true, structured := none }
  | .ok result =>
    match (saveImage decode envs home cwd tmp imageOutputDir result.data savePath).1 with
    | .error m =>
      { text := "Error generating image: " ++ m,
        image := none, isError := true, structured := none }
    | .ok saved =>
      let statusLines :=
        (match result.text with | some t => [t] | none => []) ++
        (match saved.warning with | some w => [w] | none => []) ++
        ["Image saved to: " ++ renderFPath saved.filePath, "Model: " ++ result.model]
      { text := String.intercalate "\n\n" statusLines,
        image := some (result.data, result.mimeType),
        isError := false,
        structured := some ⟨saved.filePath, result.mimeType, result.model, result.text⟩ }

end Tools

/-! ## General lemmas about the embedding -/

theorem containsSubList_append_left (l s pat : List Char)
    (h : containsSubList s pat = true) : containsSubList (l ++ s) pat = true := by
  induction l with
  | nil => simp [h]
  | cons c rest ih =>
    simp only [List.cons_append, containsSubList, Bool.or_eq_true]
    exact Or.inr ih

theorem containsSubList_self_append (pat r : List Char) :
    containsSubList (pat ++ r) pat = true := by
  cases hp : pat with
  | nil =>
    cases r with
    | nil => simp [containsSubList, List.isEmpty]
    | cons c rest => simp [containsSubList, List.isPrefixOf]
  | cons p ps =>
    have hpre : pat.isPrefixOf (pat ++ r) = true := by
      rw [List.isPrefixOf_iff_prefix]
      exact List.prefix_append _ _
    subst hp
    simp only [List.cons_append, containsSubList, Bool.or_eq_true]
    left
    exact hpre

/-- If `mid` occurs between `a` and `c`, the concatenation contains it. -/
theorem containsSub_of_middle (a mid c : String) :
    containsSub (a ++ mid ++ c) mid = true := by
  have h1 : (a ++ mid ++ c).toList = a.toList ++ (mid.toList ++ c.toList) := by
    simp [String.toList, String.data_append, List.append_assoc]
  unfold containsSub
  rw [h1]
  exact containsSubList_append_left _ _ _ (containsSubList_self_append _ _)

/-- A string contains its own suffix. -/
theorem containsSub_suffix (a mid : String) :
    containsSub (a ++ mid) mid = true := by
  have h1 : (a ++ mid).toList = a.toList ++ (mid.toList ++ []) := by
    simp [String.toList, String.data_append]
  unfold containsSub
  rw [h1]
  exact containsSubList_append_left _ _ _ (containsSubList_self_append _ _)

theorem tracePatternAux_countP (k a : Nat) :
    (Gemini.tracePatternAux a k).countP Gemini.isCallEvent = k + 1 := by
  induction k generalizing a with
  | zero => simp [Gemini.tracePatternAux, Gemini.isCallEvent]
  | succ k ih =>
    simp [Gemini.tracePatternAux, List.countP_cons, Gemini.isCallEvent, ih]

theorem tracePatternAux_getLast (k a : Nat) :
    (Gemini.tracePatternAux a k).getLast? = some Gemini.GenEvent.call := by
  induction k generalizing a with
  | zero => simp [Gemini.tracePatternAux]
  | succ k ih =>
    rw [Gemini.tracePatternAux, List.getLast?_cons_cons]
    cases hk : k with
    | zero => simp [Gemini.tracePatternAux]
    | succ k2 =>
      rw [Gemini.tracePatternAux, List.getLast?_cons_cons]
      have := ih (a + 1)
      rw [hk, Gemini.tracePatternAux, List.getLast?_cons_cons] at this
      exact this

theorem tracePatternFrom_step (a n : Nat) (h : a < n) :
    Gemini.tracePatternFrom a n =
      .call :: .sleep (Gemini.RETRY_BACKOFF_MS * 2 ^ a) :: Gemini.tracePatternFrom (a + 1) n := by
  unfold Gemini.tracePatternFrom
  have h2 : n - a = (n - (a + 1)) + 1 := by omega
  rw [h2]
  rfl

/-- Full characterization of the retry loop run on the attempt indices
`a, a+1, ..., a+k-1` with `a + k = MAX_RETRIES + 1`: there is a terminal
attempt `n ≤ MAX_RETRIES`; every earlier attempt failed with a
retryable error; the event trace is a call per attempt with the
exponential backoff sleep after every non-terminal call; and the result
is the terminal attempt's success, or the translation of its error, the
latter only when the error is non-retryable or the retry budget is
exhausted. -/
theorem generateImageLoop_char (reencode : String → String) (modelName : String)
    (oracle : Nat → Gemini.BackendOutcome) :
    ∀ k a, a + k = Gemini.MAX_RETRIES + 1 → a ≤ Gemini.MAX_RETRIES →
      ∃ n, a ≤ n ∧ n ≤ Gemini.MAX_RETRIES ∧
        (∀ i, a ≤ i → i < n →
          ∃ e, Gemini.attemptStep reencode modelName (oracle i) = .error e ∧
            Gemini.isRetryableGeminiError e = true) ∧
        (Gemini.generateImageLoop reencode modelName oracle (List.range' a k)).2 =
          Gemini.tracePatternFrom a n ∧
        ((∃ r, Gemini.attemptStep reencode modelName (oracle n) = .ok r ∧
            (Gemini.generateImageLoop reencode modelName oracle (List.range' a k)).1 = .ok r) ∨
          (∃ e, Gemini.attemptStep reencode modelName (oracle n) = .error e ∧
            (Gemini.isRetryableGeminiError e = false ∨ n = Gemini.MAX_RETRIES) ∧
            (Gemini.generateImageLoop reencode modelName oracle (List.range' a k)).1 =
              .error (.userFacing (Gemini.toUserFacingGeminiError e)))) := by
  intro k
  have hM : Gemini.MAX_RETRIES = 2 := rfl
  induction k with
  | zero =>
    intro a ha hle
    omega
  | succ k ih =>
    intro a ha hle
    rw [List.range'_succ]
    cases hstep : Gemini.attemptStep reencode modelName (oracle a) with
    | ok r =>
      refine ⟨a, le_refl a, hle, ?_, ?_, ?_⟩
      · intro i h1 h2; omega
      · simp [Gemini.generateImageLoop, hstep, Gemini.tracePatternFrom, Nat.sub_self,
          Gemini.tracePatternAux]
      · exact Or.inl ⟨r, hstep, by simp [Gemini.generateImageLoop, hstep]⟩
    | error e =>
      by_cases hr : Gemini.isRetryableGeminiError e = true ∧ a < Gemini.MAX_RETRIES
      · obtain ⟨n, h1, h2, h3, h4, h5⟩ := ih (a + 1) (by omega) (by omega)
        refine ⟨n, by omega, h2, ?_, ?_, ?_⟩
        · intro i hi1 hi2
          rcases Nat.eq_or_lt_of_le hi1 with heq | hlt
          · exact heq ▸ ⟨e, hstep, hr.1⟩
          · exact h3 i (by omega) hi2
        · simp only [Gemini.generateImageLoop, hstep, if_pos hr]
          rw [tracePatternFrom_step a n (by omega), h4]
        · rcases h5 with ⟨r, hs, hres⟩ | ⟨e2, hs, hcond, hres⟩
          · exact Or.inl ⟨r, hs, by simp only [Gemini.generateImageLoop, hstep, if_pos hr]; exact hres⟩
          · exact Or.inr ⟨e2, hs, hcond,
              by simp only [Gemini.generateImageLoop, hstep, if_pos hr]; exact hres⟩
      · refine ⟨a, le_refl a, hle, ?_, ?_, ?_⟩
        · intro i h1 h2; omega
        · simp [Gemini.generateImageLoop, hstep, if_neg hr, Gemini.tracePatternFrom,
            Nat.sub_self, Gemini.tracePatternAux]
        · refine Or.inr ⟨e, hstep, ?_, by simp [Gemini.generateImageLoop, hstep, if_neg hr]⟩
          rcases not_and_or.mp hr with h | h
          · exact Or.inl (Bool.eq_false_iff.mpr h)
          · exact Or.inr (by omega)

theorem scanParts_fst (parts : List Gemini.Part) :
    ∀ img txt, (Gemini.scanParts parts (img, txt)).1 =
      match Gemini.lastInlineData parts with
      | some d => some d
      | none => img := by
  induction parts with
  | nil => intro img txt; simp [Gemini.scanParts, Gemini.lastInlineData]
  | cons p rest ih =>
    intro img txt
    by_cases h1 : Gemini.truthy p.inlineData = true
    · rw [show Gemini.scanParts (p :: rest) (img, txt) =
          Gemini.scanParts rest (p.inlineData, txt) from by
        simp [Gemini.scanParts, h1]]
      rw [ih]
      cases hrest : Gemini.lastInlineData rest with
      | some d => simp [Gemini.lastInlineData, hrest]
      | none =>
        cases hd : p.inlineData with
        | none => rw [hd] at h1; simp [Gemini.truthy] at h1
        | some d =>
          have hne : d ≠ "" := by
            rw [hd] at h1
            simpa [Gemini.truthy] using h1
          simp [Gemini.lastInlineData, hrest, Gemini.inlinePayload, hd, hne]
    · have h1f : Gemini.truthy p.inlineData = false := by
        simpa using h1
      have hpay : Gemini.inlinePayload p = none := by
        cases hd : p.inlineData with
        | none => simp [Gemini.inlinePayload, hd]
        | some d =>
          have hde : d = "" := by
            rw [hd] at h1f
            simpa [Gemini.truthy] using h1f
          simp [Gemini.inlinePayload, hd, hde]
      have hlast : Gemini.lastInlineData (p :: rest) = Gemini.lastInlineData rest := by
        cases hrest : Gemini.lastInlineData rest with
        | some d => simp [Gemini.lastInlineData, hrest]
        | none => simp [Gemini.lastInlineData, hrest, hpay]
      by_cases h2 : Gemini.truthy p.text = true
      · rw [show Gemini.scanParts (p :: rest) (img, txt) =
            Gemini.scanParts rest (img,
              some (if Gemini.truthy txt then txt.getD "" ++ "\n" ++ p.text.getD ""
                else p.text.getD "")) from by
          simp [Gemini.scanParts, h1f, h2]]
        rw [ih, hlast]
      · have h2f : Gemini.truthy p.text = false := by simpa using h2
        rw [show Gemini.scanParts (p :: rest) (img, txt) =
            Gemini.scanParts rest (img, txt) from by
          simp [Gemini.scanParts, h1f, h2f]]
        rw [ih, hlast]

theorem processResponse_lastInline (reencode : String → String) (modelName : String)
    (parts : List Gemini.Part) (g : Gemini.GenOk)
    (h : Gemini.processResponse reencode modelName ⟨some parts⟩ = .ok g) :
    (Gemini.lastInlineData parts).isSome = true ∧
      g.data = reencode ((Gemini.lastInlineData parts).getD "") := by
  unfold Gemini.processResponse at h
  simp only at h
  by_cases hlen : parts.length = 0
  · rw [if_pos hlen] at h
    exact absurd h (by simp)
  · rw [if_neg hlen] at h
    have hfst := scanParts_fst parts none none
    cases hscan : Gemini.scanParts parts (none, none) with
    | mk img txt =>
      rw [hscan] at h hfst
      cases img with
      | none => exact absurd h (by simp)
      | some d =>
        simp only at h
        cases hlast : Gemini.lastInlineData parts with
        | none => rw [hlast] at hfst; simp at hfst
        | some d2 =>
          rw [hlast] at hfst
          simp only at hfst
          have hd2 : d2 = d := by
            have := hfst.symm
            simpa using this
          have hg := Except.ok.inj h
          constructor
          · simp [hlast]
          · rw [← hg]
            simp [hd2]

/-! ## Claim theorems -/

/-- Claim C1, counterexample: with two fragments carrying inline image
bytes "A" then "B", `generateImage` returns the bytes of the second
(last) fragment, not the first, so first-wins is false. -/
theorem claim_C1_counterexample :
    (Gemini.generateImage id ⟨some "k", none, none⟩
        (fun _ => .ok ⟨some [⟨some "A", none⟩, ⟨some "B", none⟩]⟩)).1 =
      .ok ⟨"B", "image/jpeg", "gemini-3-pro-image-preview", none⟩ ∧
    ("B" : String) ≠ "A" := by
  constructor
  · rfl
  · decide

/-- Claim C1 (amended): when the backend response contains fragments
carrying inline image bytes, the image bytes returned (and re-encoded to
JPEG) are those of the LAST such fragment encountered in fragment
order. -/
theorem claim_C1_amended (reencode : String → String) (modelName : String)
    (parts : List Gemini.Part) (g : Gemini.GenOk)
    (h : Gemini.processResponse reencode modelName ⟨some parts⟩ = .ok g) :
    (Gemini.lastInlineData parts).isSome = true ∧
      g.data = reencode ((Gemini.lastInlineData parts).getD "") :=
  processResponse_lastInline reencode modelName parts g h

theorem claim_C1_amended_witness :
    (Gemini.lastInlineData [⟨some "A", none⟩, ⟨some "B", none⟩]).isSome = true ∧
      ("B" : String) = id ((Gemini.lastInlineData [⟨some "A", none⟩, ⟨some "B", none⟩]).getD "") :=
  claim_C1_amended id "m" [⟨some "A", none⟩, ⟨some "B", none⟩]
    ⟨"B", "image/jpeg", "m", none⟩ rfl

/-- Claim C9: when `GEMINI_API_KEY` is set to the empty string, the
credential resolution fails with the missing-credential error
regardless of `GOOGLE_API_KEY`, and `generateImage` fails before any
backend attempt (empty event trace). -/
theorem claim_C9 (google modelOverride : Option String) (reencode : String → String)
    (oracle : Nat → Gemini.BackendOutcome) :
    Gemini.getConfiguredApiKey ⟨some "", google, modelOverride⟩ =
      .error Gemini.missingKeyMessage ∧
    Gemini.generateImage reencode ⟨some "", google, modelOverride⟩ oracle =
      (.error (.missingKey Gemini.missingKeyMessage), []) :=
  ⟨rfl, rfl⟩

/-- Claim C8: the credential is the primary key when set and non-empty,
falls back to the secondary key only when the primary is absent; with
neither set, `generateImage` fails with the missing-credential error
before any backend attempt (empty event trace, hence never retried),
and the tool response is error-flagged with a narrative containing
"environment variable is required". -/
theorem claim_C8 :
    (∀ (env : Gemini.GenEnv) (v : String), env.geminiKey = some v → v ≠ "" →
      Gemini.getConfiguredApiKey env = .ok v) ∧
    (∀ env : Gemini.GenEnv, env.geminiKey = none → ∀ w, env.googleKey = some w → w ≠ "" →
      Gemini.getConfiguredApiKey env = .ok w) ∧
    (∀ env : Gemini.GenEnv, env.geminiKey = none → env.googleKey = none →
      Gemini.getConfiguredApiKey env = .error Gemini.missingKeyMessage) ∧
    (∀ (reencode : String → String) (env : Gemini.GenEnv)
        (oracle : Nat → Gemini.BackendOutcome),
      env.geminiKey = none → env.googleKey = none →
      Gemini.generateImage reencode env oracle =
        (.error (.missingKey Gemini.missingKeyMessage), [])) ∧
    (∀ (reencode : String → String) (decode : String → List Nat) (env : Gemini.GenEnv)
        (oracle : Nat → Gemini.BackendOutcome) (envs : Nat → Tools.FsEnv)
        (home cwd tmp : FPath) (iod savePath : Option FPath),
      env.geminiKey = none → env.googleKey = none →
      (Tools.handler reencode decode env oracle envs home cwd tmp iod savePath).isError = true ∧
      containsSub
        (Tools.handler reencode decode env oracle envs home cwd tmp iod savePath).text
        "environment variable is required" = true) := by
  have hkey : ∀ env : Gemini.GenEnv, env.geminiKey = none → env.googleKey = none →
      Gemini.getConfiguredApiKey env = .error Gemini.missingKeyMessage := by
    intro env h1 h2
    simp [Gemini.getConfiguredApiKey, h1, h2]
  have hgen : ∀ (reencode : String → String) (env : Gemini.GenEnv)
      (oracle : Nat → Gemini.BackendOutcome),
      env.geminiKey = none → env.googleKey = none →
      Gemini.generateImage reencode env oracle =
        (.error (.missingKey Gemini.missingKeyMessage), []) := by
    intro reencode env oracle h1 h2
    simp [Gemini.generateImage, hkey env h1 h2]
  refine ⟨?_, ?_, hkey, hgen, ?_⟩
  · intro env v h1 h2
    simp [Gemini.getConfiguredApiKey, h1, h2]
  · intro env h1 w h2 h3
    simp [Gemini.getConfiguredApiKey, h1, h2, h3]
  · intro reencode decode env oracle envs home cwd tmp iod savePath h1 h2
    have hh : Tools.handler reencode decode env oracle envs home cwd tmp iod savePath =
        { text := "Error generating image: " ++ Gemini.missingKeyMessage,
          image := none, isError := true, structured := none } := by
      simp [Tools.handler, hgen reencode env oracle h1 h2, Gemini.GenError.message]
    rw [hh]
    refine ⟨rfl, ?_⟩
    have hsplit : "Error generating image: " ++ Gemini.missingKeyMessage =
        "Error generating image: GEMINI_API_KEY (or GOOGLE_API_KEY) " ++
          "environment variable is required" ++ " for image generation." := rfl
    show containsSub ("Error generating image: " ++ Gemini.missingKeyMessage)
      "environment variable is required" = true
    rw [hsplit]
    exact containsSub_of_middle _ _ _

theorem claim_C8_witness :
    Gemini.getConfiguredApiKey ⟨some "k", none, none⟩ = .ok "k" ∧
    Gemini.getConfiguredApiKey ⟨none, some "g", none⟩ = .ok "g" ∧
    Gemini.getConfiguredApiKey ⟨none, none, none⟩ = .error Gemini.missingKeyMessage ∧
    (Tools.handler id (fun _ => []) ⟨none, none, none⟩ (fun _ => .thrown .other)
        (fun _ => ⟨true, "", true, "", true, "", 1, "", ""⟩)
        ⟨true, []⟩ ⟨true, []⟩ ⟨true, []⟩ none none).isError = true :=
  ⟨claim_C8.1 _ "k" rfl (by decide),
    claim_C8.2.1 _ rfl "g" rfl (by decide),
    claim_C8.2.2.1 _ rfl rfl,
    (claim_C8.2.2.2.2 id (fun _ => []) ⟨none, none, none⟩ (fun _ => .thrown .other)
      (fun _ => ⟨true, "", true, "", true, "", 1, "", ""⟩)
      ⟨true, []⟩ ⟨true, []⟩ ⟨true, []⟩ none none rfl rfl).1⟩

/-- Claim C10: the throw after the retry loop is unreachable — for every
credential configuration and backend behaviour the function exits from
inside the loop, so the result is never the after-loop
`retriesExhausted` error; likewise for the loop started at any valid
attempt index. -/
theorem claim_C10 (reencode : String → String) (env : Gemini.GenEnv)
    (oracle : Nat → Gemini.BackendOutcome) :
    (Gemini.generateImage reencode env oracle).1 ≠ .error .retriesExhausted ∧
    ∀ (modelName : String) (a : Nat), a ≤ Gemini.MAX_RETRIES →
      (Gemini.generateImageLoop reencode modelName oracle
        (List.range' a (Gemini.MAX_RETRIES + 1 - a))).1 ≠ .error .retriesExhausted := by
  have hM : Gemini.MAX_RETRIES = 2 := rfl
  have hloop : ∀ (modelName : String) (a : Nat), a ≤ Gemini.MAX_RETRIES →
      (Gemini.generateImageLoop reencode modelName oracle
        (List.range' a (Gemini.MAX_RETRIES + 1 - a))).1 ≠ .error .retriesExhausted := by
    intro modelName a ha
    obtain ⟨n, h1, h2, h3, h4, h5⟩ :=
      generateImageLoop_char reencode modelName oracle (Gemini.MAX_RETRIES + 1 - a) a
        (by omega) ha
    rcases h5 with ⟨r, hs, hres⟩ | ⟨e, hs, hcond, hres⟩
    · rw [hres]; simp
    · rw [hres]; simp
  refine ⟨?_, hloop⟩
  cases hkey : Gemini.getConfiguredApiKey env with
  | error m =>
    simp [Gemini.generateImage, hkey]
  | ok v =>
    have := hloop (Gemini.getModelName env) 0 (by omega)
    simp only [Nat.sub_zero] at this
    simpa [Gemini.generateImage, hkey, List.range_eq_range'] using this

theorem claim_C10_witness :
    (Gemini.generateImageLoop id "m" (fun _ => .thrown .other)
      (List.range' 0 (Gemini.MAX_RETRIES + 1 - 0))).1 ≠ .error .retriesExhausted :=
  (claim_C10 id ⟨some "k", none, none⟩ (fun _ => .thrown .other)).2 "m" 0 (by decide)

/-- Claim C5: `generateImage` makes at most 3 backend calls; the trace is
a call per attempt with a backoff sleep of `500 * 2 ^ attempt` before
each retry and never after the final call; every retried attempt failed
with an error the classifier marks retryable, the terminal attempt
either succeeds, fails non-retryably, or is attempt 2; and a retryable
classification always comes from a status in
{408, 429, 500, 502, 503, 504} or a transient-sounding message. -/
theorem claim_C5 (reencode : String → String) (env : Gemini.GenEnv)
    (oracle : Nat → Gemini.BackendOutcome) :
    ((Gemini.generateImage reencode env oracle).2.countP Gemini.isCallEvent ≤ 3) ∧
    (∀ ms, (Gemini.generateImage reencode env oracle).2.getLast? ≠ some (.sleep ms)) ∧
    ((Gemini.generateImage reencode env oracle).2 = [] ∨
      ∃ n, n ≤ 2 ∧
        (Gemini.generateImage reencode env oracle).2 = Gemini.tracePatternFrom 0 n ∧
        (∀ i, i < n →
          ∃ e, Gemini.attemptStep reencode (Gemini.getModelName env) (oracle i) = .error e ∧
            Gemini.isRetryableGeminiError e = true) ∧
        ((∃ r, Gemini.attemptStep reencode (Gemini.getModelName env) (oracle n) = .ok r) ∨
          ∃ e, Gemini.attemptStep reencode (Gemini.getModelName env) (oracle n) = .error e ∧
            (Gemini.isRetryableGeminiError e = false ∨ n = 2))) ∧
    (∀ e, Gemini.isRetryableGeminiError e = true →
      (∃ s, Gemini.ThrownValue.statusOf e = some s ∧ s ∈ Gemini.RETRYABLE_STATUS_CODES) ∨
        Gemini.retryableMessage (Gemini.ThrownValue.messageOf e) = true) := by
  have hM : Gemini.MAX_RETRIES = 2 := rfl
  have hclass : ∀ e, Gemini.isRetryableGeminiError e = true →
      (∃ s, Gemini.ThrownValue.statusOf e = some s ∧ s ∈ Gemini.RETRYABLE_STATUS_CODES) ∨
        Gemini.retryableMessage (Gemini.ThrownValue.messageOf e) = true := by
    intro e he
    cases e with
    | apiError s m =>
      left
      refine ⟨s, rfl, ?_⟩
      exact List.mem_of_elem_eq_true he
    | errorWithStatus s m =>
      rcases Bool.or_eq_true_iff.mp he with h | h
      · exact Or.inl ⟨s, rfl, List.mem_of_elem_eq_true h⟩
      · exact Or.inr h
    | jsError m => exact Or.inr he
    | statusObject s m =>
      rcases Bool.or_eq_true_iff.mp he with h | h
      · exact Or.inl ⟨s, rfl, List.mem_of_elem_eq_true h⟩
      · exact Or.inr h
    | other =>
      exact absurd he (by decide)
  cases hkey : Gemini.getConfiguredApiKey env with
  | error m =>
    have hres : Gemini.generateImage reencode env oracle =
        (.error (.missingKey m), []) := by
      simp [Gemini.generateImage, hkey]
    rw [hres]
    exact ⟨by simp, by simp, Or.inl rfl, hclass⟩
  | ok v =>
    have hres : Gemini.generateImage reencode env oracle =
        Gemini.generateImageLoop reencode (Gemini.getModelName env) oracle
          (List.range' 0 3) := by
      simp [Gemini.generateImage, hkey, List.range_eq_range', Gemini.MAX_RETRIES]
    obtain ⟨n, h1, h2, h3, h4, h5⟩ :=
      generateImageLoop_char reencode (Gemini.getModelName env) oracle 3 0
        (by omega) (by omega)
    rw [hres, h4]
    refine ⟨?_, ?_, ?_, hclass⟩
    · rw [Gemini.tracePatternFrom, tracePatternAux_countP]
      omega
    · intro ms
      rw [Gemini.tracePatternFrom, tracePatternAux_getLast]
      simp
    · right
      refine ⟨n, by omega, rfl, fun i hi => h3 i (by omega) hi, ?_⟩
      rcases h5 with ⟨r, hs, _⟩ | ⟨e, hs, hcond, _⟩
      · exact Or.inl ⟨r, hs⟩
      · refine Or.inr ⟨e, hs, ?_⟩
        rcases hcond with h | h
        · exact Or.inl h
        · exact Or.inr (by omega)

theorem claim_C5_witness :
    ((Gemini.generateImage id ⟨some "k", none, none⟩
      (fun _ => .thrown (.apiError 503 "x"))).2.countP Gemini.isCallEvent ≤ 3) :=
  (claim_C5 id ⟨some "k", none, none⟩ (fun _ => .thrown (.apiError 503 "x"))).1

/-- Claim C7: the caller-facing error translation maps 401/403 to the
check-credential message, 429 to the retry-later message, 5xx to the
temporarily-unavailable message, and any other failure to a message
containing the original status and detail verbatim; and the terminal
error of `generateImage` is exactly the translation of the terminal
attempt's error, produced when retries are exhausted or a non-retryable
failure is detected, with every earlier attempt having failed
retryably. -/
theorem claim_C7 :
    (∀ m, Gemini.toUserFacingGeminiError (.apiError 401 m) = Gemini.authFailedMessage ∧
      Gemini.toUserFacingGeminiError (.apiError 403 m) = Gemini.authFailedMessage) ∧
    (∀ m, Gemini.toUserFacingGeminiError (.apiError 429 m) = Gemini.rateLimitMessage) ∧
    (∀ s m, 500 ≤ s →
      Gemini.toUserFacingGeminiError (.apiError s m) = Gemini.unavailableMessage) ∧
    (∀ s m, s ≠ 401 → s ≠ 403 → s ≠ 429 → s < 500 →
      containsSub (Gemini.toUserFacingGeminiError (.apiError s m)) (toString s) = true ∧
      containsSub (Gemini.toUserFacingGeminiError (.apiError s m)) m = true) ∧
    (∀ m, containsSub (Gemini.toUserFacingGeminiError (.jsError m)) m = true) ∧
    (∀ (reencode : String → String) (env : Gemini.GenEnv)
        (oracle : Nat → Gemini.BackendOutcome) (msg : String),
      (Gemini.generateImage reencode env oracle).1 = .error (.userFacing msg) →
      ∃ n, n ≤ 2 ∧
        (∀ i, i < n →
          ∃ e2, Gemini.attemptStep reencode (Gemini.getModelName env) (oracle i) = .error e2 ∧
            Gemini.isRetryableGeminiError e2 = true) ∧
        ∃ e, Gemini.attemptStep reencode (Gemini.getModelName env) (oracle n) = .error e ∧
          msg = Gemini.toUserFacingGeminiError e ∧
          (Gemini.isRetryableGeminiError e = false ∨ n = 2)) := by
  have hM : Gemini.MAX_RETRIES = 2 := rfl
  refine ⟨?_, ?_, ?_, ?_, ?_, ?_⟩
  · intro m
    constructor <;> simp [Gemini.toUserFacingGeminiError]
  · intro m
    simp [Gemini.toUserFacingGeminiError]
  · intro s m hs
    rw [Gemini.toUserFacingGeminiError]
    rw [if_neg (by omega), if_neg (by omega), if_pos (by omega)]
  · intro s m h1 h2 h3 h4
    rw [Gemini.toUserFacingGeminiError]
    rw [if_neg (by omega), if_neg (by omega), if_neg (by omega)]
    constructor
    · rw [String.append_assoc]
      exact containsSub_of_middle _ _ _
    · exact containsSub_suffix _ _
  · intro m
    exact containsSub_suffix _ _
  · intro reencode env oracle msg hmsg
    cases hkey : Gemini.getConfiguredApiKey env with
    | error m =>
      rw [show (Gemini.generateImage reencode env oracle).1 = .error (.missingKey m) from by
        simp [Gemini.generateImage, hkey]] at hmsg
      exact absurd hmsg (by simp)
    | ok v =>
      have hres : (Gemini.generateImage reencode env oracle).1 =
          (Gemini.generateImageLoop reencode (Gemini.getModelName env) oracle
            (List.range' 0 3)).1 := by
        simp [Gemini.generateImage, hkey, List.range_eq_range', Gemini.MAX_RETRIES]
      rw [hres] at hmsg
      obtain ⟨n, h1, h2, h3, h4, h5⟩ :=
        generateImageLoop_char reencode (Gemini.getModelName env) oracle 3 0
          (by omega) (by omega)
      rcases h5 with ⟨r, hs, hres2⟩ | ⟨e, hs, hcond, hres2⟩
      · rw [hres2] at hmsg
        exact absurd hmsg (by simp)
      · rw [hres2] at hmsg
        have heq : msg = Gemini.toUserFacingGeminiError e := by
          have := Except.error.inj hmsg
          exact (Gemini.GenError.userFacing.inj this).symm
        refine ⟨n, by omega, fun i hi => h3 i (by omega) hi, e, hs, heq, ?_⟩
        rcases hcond with h | h
        · exact Or.inl h
        · exact Or.inr (by omega)

theorem claim_C7_witness :
    Gemini.toUserFacingGeminiError (.apiError 401 "x") = Gemini.authFailedMessage ∧
    Gemini.toUserFacingGeminiError (.apiError 429 "x") = Gemini.rateLimitMessage ∧
    Gemini.toUserFacingGeminiError (.apiError 503 "x") = Gemini.unavailableMessage ∧
    containsSub (Gemini.toUserFacingGeminiError (.apiError 400 "bad")) "bad" = true :=
  ⟨(claim_C7.1 "x").1, claim_C7.2.1 "x", claim_C7.2.2.1 503 "x" (by omega),
    (claim_C7.2.2.2.1 400 "bad" (by decide) (by decide) (by decide) (by decide)).2⟩

theorem extensionErrorMessage_contains_marker (ext : String) :
    containsSub (Tools.extensionErrorMessage ext) Tools.extMarker = true := by
  have hsplit : Tools.extensionErrorMessage ext =
      "save_path " ++ Tools.extMarker ++
        (" because this tool outputs JPEG data, got: " ++ ext) := by
    show "save_path must use a .jpg or .jpeg extension because this tool outputs JPEG data, got: " ++
        ext = "save_path " ++ Tools.extMarker ++
        (" because this tool outputs JPEG data, got: " ++ ext)
    rw [show "save_path must use a .jpg or .jpeg extension because this tool outputs JPEG data, got: " =
        "save_path " ++ Tools.extMarker ++ " because this tool outputs JPEG data, got: " from rfl]
    rw [String.append_assoc]
  rw [hsplit]
  exact containsSub_of_middle _ _ _

/-- Claim C2, counterexample: in the strict variant, a zero-length
payload with a directory-shaped target still performs the directory
creation before failing with the empty-payload error, so the
no-filesystem-operation-before-failure part of the claim is false. -/
theorem claim_C2_counterexample :
    ToolsStrict.saveImage (fun _ => []) ⟨true, "m", true, "w", true, "s", 5, "TS", "R"⟩ "x"
        ⟨true, ["tmp", "out"]⟩ =
      (.error Tools.emptyPayloadMessage, [.mkdirRec ⟨true, ["tmp", "out"]⟩]) ∧
    ([Tools.FsOp.mkdirRec ⟨true, ["tmp", "out"]⟩] : List Tools.FsOp) ≠ [] := by
  exact ⟨rfl, by simp⟩

/-- Claim C2 (amended): in the fallback variant, a zero-length payload
always fails with the empty-payload error before any filesystem
operation; in the strict variant, the target is resolved first — any
directory creation of the resolution happens before the check — and a
zero-length payload then fails with the empty-payload error only when
the resolution succeeded; a failing resolution surfaces its own error
instead. -/
theorem claim_C2_amended :
    (∀ (decode : String → List Nat) (envs : Nat → Tools.FsEnv) (home cwd tmp : FPath)
        (iod savePath : Option FPath) (data : String),
      (decode data).length = 0 →
      Tools.saveImage decode envs home cwd tmp iod data savePath =
        (.error Tools.emptyPayloadMessage, [])) ∧
    (∀ (decode : String → List Nat) (env : Tools.FsEnv) (data : String) (savePath fp : FPath)
        (ops : List Tools.FsOp),
      (decode data).length = 0 →
      ToolsStrict.resolveOutputFilePath env savePath = (.ok fp, ops) →
      ToolsStrict.saveImage decode env data savePath = (.error Tools.emptyPayloadMessage, ops)) ∧
    (∀ (decode : String → List Nat) (env : Tools.FsEnv) (data : String) (savePath : FPath)
        (m : String) (ops : List Tools.FsOp),
      ToolsStrict.resolveOutputFilePath env savePath = (.error m, ops) →
      ToolsStrict.saveImage decode env data savePath = (.error m, ops)) := by
  refine ⟨?_, ?_, ?_⟩
  · intro decode envs home cwd tmp iod savePath data h
    simp [Tools.saveImage, h]
  · intro decode env data savePath fp ops h hres
    simp [ToolsStrict.saveImage, hres, h]
  · intro decode env data savePath m ops hres
    simp [ToolsStrict.saveImage, hres]

theorem claim_C2_amended_witness :
    Tools.saveImage (fun _ => []) (fun _ => ⟨true, "", true, "", true, "", 1, "", ""⟩)
        ⟨true, ["h"]⟩ ⟨true, ["c"]⟩ ⟨true, ["t"]⟩ none "x" none =
      (.error Tools.emptyPayloadMessage, []) ∧
    ToolsStrict.saveImage (fun _ => []) ⟨true, "", true, "", true, "", 1, "TS", "R"⟩ "x"
        ⟨true, ["tmp", "photo.jpg"]⟩ =
      (.error Tools.emptyPayloadMessage, [.mkdirRec ⟨true, ["tmp"]⟩]) :=
  ⟨claim_C2_amended.1 (fun _ => []) (fun _ => ⟨true, "", true, "", true, "", 1, "", ""⟩)
      ⟨true, ["h"]⟩ ⟨true, ["c"]⟩ ⟨true, ["t"]⟩ none none "x" rfl,
    claim_C2_amended.2.1 (fun _ => []) ⟨true, "", true, "", true, "", 1, "TS", "R"⟩ "x"
      ⟨true, ["tmp", "photo.jpg"]⟩ ⟨true, ["tmp", "photo.jpg"]⟩
      [.mkdirRec ⟨true, ["tmp"]⟩] rfl rfl⟩

/-- Claim C3: in the fallback variant, a caller-supplied file path whose
extension is not a recognized JPEG extension makes `saveImage` fail
immediately with the invalid-extension error, with no filesystem
operation and hence no attempt against any default directory. -/
theorem claim_C3 (decode : String → List Nat) (envs : Nat → Tools.FsEnv)
    (home cwd tmp : FPath) (iod : Option FPath) (data : String) (sp : FPath)
    (hdata : ¬(decode data).length = 0)
    (hext : ¬(Tools.normalizePathInput home cwd sp).extname = "")
    (hjpeg : Tools.JPEG_EXTENSIONS.contains
      (toLowerAscii (Tools.normalizePathInput home cwd sp).extname) = false) :
    Tools.saveImage decode envs home cwd tmp iod data (some sp) =
      (.error (Tools.extensionErrorMessage (Tools.normalizePathInput home cwd sp).extname),
        []) := by
  have hresolve : Tools.resolveOutputFilePath (envs 0) home cwd
      (Tools.getDefaultOutputDirectories iod home tmp cwd) (some sp) none =
      (.error (Tools.extensionErrorMessage (Tools.normalizePathInput home cwd sp).extname),
        []) := by
    have hmem : ¬ toLowerAscii (Tools.normalizePathInput home cwd sp).extname ∈
        Tools.JPEG_EXTENSIONS := by
      simpa using hjpeg
    simp [Tools.resolveOutputFilePath, Tools.resolveCore, Tools.effectiveTarget, hext, hmem]
  have hrun : Tools.runAttempt (envs 0) home cwd
      (Tools.getDefaultOutputDirectories iod home tmp cwd)
      ⟨some sp, none, "requested save_path"⟩ =
      (.error (Tools.extensionErrorMessage (Tools.normalizePathInput home cwd sp).extname),
        []) := by
    simp [Tools.runAttempt, hresolve]
  simp [Tools.saveImage, hdata, Tools.buildAttempts, Tools.saveLoop, hrun,
    extensionErrorMessage_contains_marker]

theorem claim_C3_witness :
    ¬((fun (_ : String) => [1]) "x").length = 0 ∧
    ¬(Tools.normalizePathInput ⟨true, ["h"]⟩ ⟨true, ["c"]⟩
        ⟨true, ["tmp", "x", "photo.png"]⟩).extname = "" ∧
    Tools.JPEG_EXTENSIONS.contains
      (toLowerAscii (Tools.normalizePathInput ⟨true, ["h"]⟩ ⟨true, ["c"]⟩
        ⟨true, ["tmp", "x", "photo.png"]⟩).extname) = false ∧
    Tools.saveImage (fun _ => [1]) (fun _ => ⟨true, "", true, "", true, "", 1, "", ""⟩)
        ⟨true, ["h"]⟩ ⟨true, ["c"]⟩ ⟨true, ["t"]⟩ none "x"
        (some ⟨true, ["tmp", "x", "photo.png"]⟩) =
      (.error (Tools.extensionErrorMessage
        (Tools.normalizePathInput ⟨true, ["h"]⟩ ⟨true, ["c"]⟩
          ⟨true, ["tmp", "x", "photo.png"]⟩).extname), []) :=
  ⟨by decide, by decide, by decide,
    claim_C3 (fun _ => [1]) (fun _ => ⟨true, "", true, "", true, "", 1, "", ""⟩)
      ⟨true, ["h"]⟩ ⟨true, ["c"]⟩ ⟨true, ["t"]⟩ none "x"
      ⟨true, ["tmp", "x", "photo.png"]⟩ (by decide) (by decide) (by decide)⟩

theorem defaultAttempts_savePath_none (sp : Option FPath) (defaults : List FPath) :
    ∀ a ∈ Tools.defaultAttempts sp defaults, a.savePath = none := by
  intro a ha
  simp only [Tools.defaultAttempts, List.mem_map] at ha
  obtain ⟨p, _, rfl⟩ := ha
  rfl

/-- With no caller-supplied target, a successful pass of the attempt
loop never carries a warning. -/
theorem saveLoop_none_warning (envs : Nat → Tools.FsEnv) (home cwd : FPath)
    (defaults : List FPath) :
    ∀ (attempts : List Tools.Attempt) (i : Nat) (ff lm : Option String)
      (r : Tools.SaveResult),
      (Tools.saveLoop envs home cwd defaults none attempts i ff lm).1 = .ok r →
      r.warning = none := by
  intro attempts
  induction attempts with
  | nil =>
    intro i ff lm r h
    simp [Tools.saveLoop] at h
  | cons a rest ih =>
    intro i ff lm r h
    cases hrun : Tools.runAttempt (envs i) home cwd defaults a with
    | mk res ops2 =>
      cases res with
      | ok fp =>
        by_cases hsv : a.savePath.isSome = true
        · rw [show (Tools.saveLoop envs home cwd defaults none (a :: rest) i ff lm).1 =
              .ok ⟨fp, none⟩ from by simp [Tools.saveLoop, hrun, hsv]] at h
          have := Except.ok.inj h
          rw [← this]
        · rw [show (Tools.saveLoop envs home cwd defaults none (a :: rest) i ff lm).1 =
              .ok ⟨fp, none⟩ from by simp [Tools.saveLoop, hrun, hsv]] at h
          have := Except.ok.inj h
          rw [← this]
      | error msg =>
        by_cases hcond : a.savePath.isSome = true ∧ containsSub msg Tools.extMarker = true
        · rw [show (Tools.saveLoop envs home cwd defaults none (a :: rest) i ff lm).1 =
              .error msg from by simp [Tools.saveLoop, hrun, hcond]] at h
          simp at h
        · rw [show (Tools.saveLoop envs home cwd defaults none (a :: rest) i ff lm).1 =
              (Tools.saveLoop envs home cwd defaults none rest (i + 1)
                (some (ff.getD (a.label ++ ": " ++ msg))) (some msg)).1 from by
            simp [Tools.saveLoop, hrun, hcond]] at h
          exact ih _ _ _ _ h

/-- With a caller-supplied target and a first failure already recorded,
a success of the attempt loop on the remaining (default-directory)
attempts always carries a warning. -/
theorem saveLoop_some_warning (envs : Nat → Tools.FsEnv) (home cwd : FPath)
    (defaults : List FPath) (sp : FPath) (f : String) :
    ∀ (attempts : List Tools.Attempt) (i : Nat) (lm : Option String)
      (r : Tools.SaveResult),
      (∀ a ∈ attempts, a.savePath = none) →
      (Tools.saveLoop envs home cwd defaults (some sp) attempts i (some f) lm).1 = .ok r →
      r.warning.isSome = true := by
  intro attempts
  induction attempts with
  | nil =>
    intro i lm r _ h
    simp [Tools.saveLoop] at h
  | cons a rest ih =>
    intro i lm r hmem h
    have hsv : a.savePath = none := hmem a (by simp)
    cases hrun : Tools.runAttempt (envs i) home cwd defaults a with
    | mk res ops2 =>
      cases res with
      | ok fp =>
        rw [show (Tools.saveLoop envs home cwd defaults (some sp) (a :: rest) i
            (some f) lm).1 = .ok ⟨fp, some (Tools.fallbackWarning f)⟩ from by
          simp [Tools.saveLoop, hrun, hsv]] at h
        have := Except.ok.inj h
        rw [← this]
        rfl
      | error msg =>
        rw [show (Tools.saveLoop envs home cwd defaults (some sp) (a :: rest) i
            (some f) lm).1 =
            (Tools.saveLoop envs home cwd defaults (some sp) rest (i + 1)
              (some f) (some msg)).1 from by
          simp [Tools.saveLoop, hrun, hsv]] at h
        exact ih _ _ _ (fun b hb => hmem b (by simp [hb])) h

/-- Claim C4: for every successful fallback-variant `saveImage` call, the
warning is present exactly when a caller-supplied target was given and
its own (first) attempt failed — in particular no warning without a
caller target, and none when the caller target itself succeeded. -/
theorem claim_C4 (decode : String → List Nat) (envs : Nat → Tools.FsEnv)
    (home cwd tmp : FPath) (iod savePath : Option FPath) (data : String)
    (r : Tools.SaveResult) (ops : List Tools.FsOp)
    (h : Tools.saveImage decode envs home cwd tmp iod data savePath = (.ok r, ops)) :
    r.warning.isSome = true ↔ savePath.isSome = true ∧
      (Tools.runAttempt (envs 0) home cwd
        (Tools.getDefaultOutputDirectories iod home tmp cwd)
        ⟨savePath, none, "requested save_path"⟩).1.isOk = false := by
  have h1 : (Tools.saveImage decode envs home cwd tmp iod data savePath).1 = .ok r := by
    rw [h]
  by_cases hlen : (decode data).length = 0
  · simp [Tools.saveImage, hlen] at h1
  · rw [show (Tools.saveImage decode envs home cwd tmp iod data savePath).1 =
        (Tools.saveLoop envs home cwd (Tools.getDefaultOutputDirectories iod home tmp cwd)
          savePath
          (Tools.buildAttempts savePath (Tools.getDefaultOutputDirectories iod home tmp cwd))
          0 none none).1 from by simp [Tools.saveImage, hlen]] at h1
    cases savePath with
    | none =>
      have hw := saveLoop_none_warning envs home cwd _ _ 0 none none r h1
      constructor
      · intro hws
        rw [hw] at hws
        simp at hws
      · rintro ⟨hs, _⟩
        simp at hs
    | some sp =>
      rw [show Tools.buildAttempts (some sp)
          (Tools.getDefaultOutputDirectories iod home tmp cwd) =
          ⟨some sp, none, "requested save_path"⟩ ::
            Tools.defaultAttempts (some sp)
              (Tools.getDefaultOutputDirectories iod home tmp cwd) from by
        simp [Tools.buildAttempts]] at h1
      cases hrun : Tools.runAttempt (envs 0) home cwd
          (Tools.getDefaultOutputDirectories iod home tmp cwd)
          ⟨some sp, none, "requested save_path"⟩ with
      | mk res ops2 =>
        cases res with
        | ok fp =>
          rw [show (Tools.saveLoop envs home cwd
              (Tools.getDefaultOutputDirectories iod home tmp cwd) (some sp)
              (⟨some sp, none, "requested save_path"⟩ ::
                Tools.defaultAttempts (some sp)
                  (Tools.getDefaultOutputDirectories iod home tmp cwd)) 0 none none).1 =
              .ok ⟨fp, none⟩ from by simp [Tools.saveLoop, hrun]] at h1
          have hr := Except.ok.inj h1
          constructor
          · intro hws
            rw [← hr] at hws
            simp at hws
          · rintro ⟨_, hbad⟩
            exact Bool.noConfusion hbad
        | error msg =>
          by_cases hcond : containsSub msg Tools.extMarker = true
          · rw [show (Tools.saveLoop envs home cwd
                (Tools.getDefaultOutputDirectories iod home tmp cwd) (some sp)
                (⟨some sp, none, "requested save_path"⟩ ::
                  Tools.defaultAttempts (some sp)
                    (Tools.getDefaultOutputDirectories iod home tmp cwd)) 0 none none).1 =
                .error msg from by simp [Tools.saveLoop, hrun, hcond]] at h1
            simp at h1
          · rw [show (Tools.saveLoop envs home cwd
                (Tools.getDefaultOutputDirectories iod home tmp cwd) (some sp)
                (⟨some sp, none, "requested save_path"⟩ ::
                  Tools.defaultAttempts (some sp)
                    (Tools.getDefaultOutputDirectories iod home tmp cwd)) 0 none none).1 =
                (Tools.saveLoop envs home cwd
                  (Tools.getDefaultOutputDirectories iod home tmp cwd) (some sp)
                  (Tools.defaultAttempts (some sp)
                    (Tools.getDefaultOutputDirectories iod home tmp cwd)) 1
                  (some ("requested save_path" ++ ": " ++ msg)) (some msg)).1 from by
              simp [Tools.saveLoop, hrun, hcond]] at h1
            have hws := saveLoop_some_warning envs home cwd _ sp _ _ 1 (some msg) r
              (defaultAttempts_savePath_none _ _) h1
            constructor
            · intro _
              exact ⟨by simp, rfl⟩
            · intro _
              exact hws

theorem claim_C4_witness :
    ((⟨⟨true, ["h", "nano-banana-images", "generated-TS-R.jpg"]⟩, none⟩ :
        Tools.SaveResult).warning.isSome = true ↔
      (none : Option FPath).isSome = true ∧
        (Tools.runAttempt ((fun _ => ⟨true, "", true, "", true, "", 1, "TS", "R"⟩) 0)
          ⟨true, ["h"]⟩ ⟨true, ["c"]⟩
          (Tools.getDefaultOutputDirectories none ⟨true, ["h"]⟩ ⟨true, ["t"]⟩ ⟨true, ["c"]⟩)
          ⟨none, none, "requested save_path"⟩).1.isOk = false) :=
  claim_C4 (fun _ => [1]) (fun _ => ⟨true, "", true, "", true, "", 1, "TS", "R"⟩)
    ⟨true, ["h"]⟩ ⟨true, ["c"]⟩ ⟨true, ["t"]⟩ none none "x"
    ⟨⟨true, ["h", "nano-banana-images", "generated-TS-R.jpg"]⟩, none⟩ _ rfl

/-- Claim C6: for both variants, a directory-shaped effective target is
created recursively and the returned path is that directory joined with
a generated `generated-<timestamp>-<random-suffix>.jpg` filename (its
parent is the target); a target whose extension lower-cases to `.jpg`
or `.jpeg` is returned unchanged after the parent directory is ensured;
any other extension fails with the invalid-extension error.  The strict
variant behaves identically on absolute paths. -/
theorem claim_C6 :
    (∀ (env : Tools.FsEnv) (home cwd : FPath) (defaults : List FPath)
        (savePath defaultDir : Option FPath) (t : FPath),
      t = Tools.effectiveTarget home cwd defaults savePath defaultDir →
      env.mkdirOk = true →
      ((t.extname = "" →
        Tools.resolveOutputFilePath env home cwd defaults savePath defaultDir =
          (.ok (t.joinFile (Tools.buildGeneratedFileName env.timestamp env.randomId)),
            [.mkdirRec t]) ∧
        (t.joinFile (Tools.buildGeneratedFileName env.timestamp env.randomId)).dirname = t ∧
        (t.joinFile (Tools.buildGeneratedFileName env.timestamp env.randomId)).segs.getLastD
            "" = "generated-" ++ (env.timestamp ++ "-" ++ env.randomId) ++ ".jpg") ∧
      (¬t.extname = "" →
        Tools.JPEG_EXTENSIONS.contains (toLowerAscii t.extname) = true →
        Tools.resolveOutputFilePath env home cwd defaults savePath defaultDir =
          (.ok t, [.mkdirRec t.dirname])) ∧
      (¬t.extname = "" →
        Tools.JPEG_EXTENSIONS.contains (toLowerAscii t.extname) = false →
        Tools.resolveOutputFilePath env home cwd defaults savePath defaultDir =
          (.error (Tools.extensionErrorMessage t.extname), [])))) ∧
    (∀ (env : Tools.FsEnv) (sp : FPath), sp.abs = true →
      ToolsStrict.resolveOutputFilePath env sp = Tools.resolveCore env sp) := by
  constructor
  · intro env home cwd defaults savePath defaultDir t ht hmk
    subst ht
    refine ⟨?_, ?_, ?_⟩
    · intro hext
      refine ⟨?_, ?_, ?_⟩
      · simp [Tools.resolveOutputFilePath, Tools.resolveCore, hext, hmk]
      · cases h : Tools.effectiveTarget home cwd defaults savePath defaultDir with
        | mk ab segs =>
          simp [FPath.joinFile, FPath.dirname, List.dropLast_concat]
      · cases h : Tools.effectiveTarget home cwd defaults savePath defaultDir with
        | mk ab segs =>
          simp [FPath.joinFile, List.getLastD_concat, Tools.buildGeneratedFileName,
            String.append_assoc]
    · intro hext hjpeg
      have hmem : toLowerAscii
          (Tools.effectiveTarget home cwd defaults savePath defaultDir).extname ∈
          Tools.JPEG_EXTENSIONS := by
        simpa using hjpeg
      simp [Tools.resolveOutputFilePath, Tools.resolveCore, hext, hmem, hmk]
    · intro hext hjpeg
      have hmem : ¬ toLowerAscii
          (Tools.effectiveTarget home cwd defaults savePath defaultDir).extname ∈
          Tools.JPEG_EXTENSIONS := by
        simpa using hjpeg
      simp [Tools.resolveOutputFilePath, Tools.resolveCore, hext, hmem]
  · intro env sp habs
    simp [ToolsStrict.resolveOutputFilePath, habs]

theorem claim_C6_witness :
    Tools.resolveOutputFilePath ⟨true, "", true, "", true, "", 1, "TS", "R"⟩
        ⟨true, ["h"]⟩ ⟨true, ["c"]⟩ [] (some ⟨true, ["d"]⟩) none =
      (.ok ((⟨true, ["d"]⟩ : FPath).joinFile
          (Tools.buildGeneratedFileName "TS" "R")),
        [.mkdirRec ⟨true, ["d"]⟩]) ∧
    Tools.resolveOutputFilePath ⟨true, "", true, "", true, "", 1, "TS", "R"⟩
        ⟨true, ["h"]⟩ ⟨true, ["c"]⟩ [] (some ⟨true, ["d", "a.JPG"]⟩) none =
      (.ok ⟨true, ["d", "a.JPG"]⟩, [.mkdirRec (⟨true, ["d", "a.JPG"]⟩ : FPath).dirname]) ∧
    Tools.resolveOutputFilePath ⟨true, "", true, "", true, "", 1, "TS", "R"⟩
        ⟨true, ["h"]⟩ ⟨true, ["c"]⟩ [] (some ⟨true, ["d", "a.png"]⟩) none =
      (.error (Tools.extensionErrorMessage (⟨true, ["d", "a.png"]⟩ : FPath).extname), []) ∧
    ToolsStrict.resolveOutputFilePath ⟨true, "", true, "", true, "", 1, "TS", "R"⟩
        ⟨true, ["d"]⟩ =
      Tools.resolveCore ⟨true, "", true, "", true, "", 1, "TS", "R"⟩ ⟨true, ["d"]⟩ := by
  have h := claim_C6
  refine ⟨?_, ?_, ?_, ?_⟩
  · exact ((h.1 ⟨true, "", true, "", true, "", 1, "TS", "R"⟩ ⟨true, ["h"]⟩ ⟨true, ["c"]⟩ []
      (some ⟨true, ["d"]⟩) none ⟨true, ["d"]⟩ (by decide) rfl).1 (by decide)).1
  · exact (h.1 ⟨true, "", true, "", true, "", 1, "TS", "R"⟩ ⟨true, ["h"]⟩ ⟨true, ["c"]⟩ []
      (some ⟨true, ["d", "a.JPG"]⟩) none ⟨true, ["d", "a.JPG"]⟩ (by decide) rfl).2.1
      (by decide) (by decide)
  · exact (h.1 ⟨true, "", true, "", true, "", 1, "TS", "R"⟩ ⟨true, ["h"]⟩ ⟨true, ["c"]⟩ []
      (some ⟨true, ["d", "a.png"]⟩) none ⟨true, ["d", "a.png"]⟩ (by decide) rfl).2.2
      (by decide) (by decide)
  · exact h.2 ⟨true, "", true, "", true, "", 1, "TS", "R"⟩ ⟨true, ["d"]⟩ rfl
